import Mathlib

/-!
Verification of the `iex` error-propagation core.

Shallow embedding of the runtime protocol of the `iex` crate
(`src/lib.rs`: `Marker`, `_IexForward`, `ExceptionMapper`) and of the
`#[iex]` derive macro's try-rewriting visitor
(`iex-derive/src/lib.rs`: `ReplaceTry`).

Runtime type identities (`typeid::of`, the slot's type tag) are modelled
as natural numbers; error and output payloads as natural numbers.  Side
effects are made observable through an explicit event trace: slot reads
and writes, invocations of a guard's conversion function, and the release
(drop) of a guard's owned state and function.  Unwinding is modelled by a
control type with a `ret`, an `unwind` and a `fatal` (protocol violation
/ abort) outcome, threaded together with the thread-local exception slot.
-/

namespace Iex

/-- Runtime type identity (`typeid::of::<T>()`), modelled as a natural. -/
abbrev Tag := Nat

/-- Payload values stored in the slot / returned by computations. -/
abbrev Val := Nat

/-- Observable events of a protocol run. -/
inductive Ev where
  /-- The slot is read, keyed by the given expected type tag. -/
  | readE (tag : Tag)
  /-- A value is written to the slot under the given type tag. -/
  | writeE (tag : Tag)
  /-- A scope guard's conversion function is invoked. -/
  | callF
  /-- A scope guard's owned state is released (moved out / dropped). -/
  | dropS
  /-- A scope guard's conversion function value is released. -/
  | dropF
deriving DecidableEq, Repr

/-- The thread-local exception slot: empty, or one `(type tag, value)` pair. -/
inductive Exception where
  | empty : Exception
  | full (tag : Tag) (val : Val) : Exception
deriving DecidableEq, Repr

/-- Modelled from the spec: `exception.rs` is not under `src/`.  Spec §4.1:
`read<T>` compares the stored type tag against `T`; on match it removes and
returns the value, on mismatch (or empty slot) it returns nothing and leaves
the slot untouched. -/
def Exception.read (tag : Tag) : Exception → Option Val × Exception
  | .empty => (none, .empty)
  | .full t v => if t = tag then (some v, .empty) else (none, .full t v)

/-- Modelled from the spec: `exception.rs` is not under `src/`.  Spec §4.1:
`write<T>` requires the slot to be empty; a write to a non-empty slot is a
protocol-contract breach treated as fatal (`none`). -/
def Exception.write (tag : Tag) (v : Val) : Exception → Option Exception
  | .empty => some (.full tag v)
  | .full _ _ => none

/-- Control outcome of a protocol step: a normal return carrying a value, an
unwind in flight (its payload, if any, lives in the slot), or a fatal
protocol violation (abort). -/
inductive Ctl (α : Type) where
  | ret (a : α)
  | unwind
  | fatal
deriving DecidableEq, Repr

/-- A computation the `Outcome` trait abstracts: it is consumed once and is
either a success carrying an output or a failure carrying an error. -/
inductive OutcomeV where
  | ok (v : Val)
  | err (e : Val)
deriving DecidableEq, Repr

/-- Modelled from the spec: `outcome.rs` is not under `src/`.  Spec §4.3,
`get_value_or_signal(outcome, token)`: on success it returns the output
directly with zero slot accesses; on failure it writes the error into the
slot tagged with the runtime type identity of the token's `E` and triggers
an unwind; a write to a non-empty slot is fatal. -/
def getValueOrPanic (tagE : Tag) (o : OutcomeV) (s : Exception) :
    Ctl Val × Exception × List Ev :=
  match o with
  | .ok v => (.ret v, s, [])
  | .err e =>
    match s.write tagE e with
    | some s' => (.unwind, s', [.writeE tagE])
    | none => (.fatal, s, [.writeE tagE])

namespace ExceptionMapper

/-- Embeds `ExceptionMapper::swallow` (src/lib.rs:252-256): drops the owned state,
drops the conversion function, and `mem::forget`s the guard so that its
`Drop` impl never runs.  The slot is not touched. -/
def swallow (s : Exception) : Exception × List Ev :=
  (s, [Ev.dropS, Ev.dropF])

/-- Embeds `impl Drop for ExceptionMapper` (src/lib.rs:259-273), the fire path.
`T` is the guard's expected input error tag, `U` the output tag, `st` the
owned state.  The conversion function `f` is effectful: it receives the
state, the error, and the current slot, and returns the converted value,
the slot it leaves behind, and its own event trace (it may itself exercise
the protocol).  The code reads the slot keyed by `T`; on a match it takes
the state and the function out of their `ManuallyDrop` cells, applies the
conversion, and writes the result back under `U`; on a mismatch the `if
let` fails and nothing else happens (in particular the `ManuallyDrop`
fields are not dropped). -/
def drop (T U : Tag) (st : Val)
    (f : Val → Val → Exception → Val × Exception × List Ev)
    (s : Exception) : Ctl Unit × Exception × List Ev :=
  match s.read T with
  | (none, s') => (.ret (), s', [Ev.readE T])
  | (some e, s') =>
    let r := f st e s'
    match r.2.1.write U r.1 with
    | some s'' =>
      (.ret (), s'', [Ev.readE T, Ev.dropS, Ev.dropF, Ev.callF] ++ r.2.2 ++ [Ev.writeE U])
    | none =>
      (.fatal, r.2.1, [Ev.readE T, Ev.dropS, Ev.dropF, Ev.callF] ++ r.2.2 ++ [Ev.writeE U])

/-- The fired continuation of `drop` once the slot matched: the conversion
has produced value `u`, left slot `s'` behind and emitted trace `evs`; the
result is written back under `U` after the conversion returned. -/
def dropFired (T U : Tag) (r : Val × Exception × List Ev) :
    Ctl Unit × Exception × List Ev :=
  match r.2.1.write U r.1 with
  | some s'' =>
    (.ret (), s'', [Ev.readE T, Ev.dropS, Ev.dropF, Ev.callF] ++ r.2.2 ++ [Ev.writeE U])
  | none =>
    (.fatal, r.2.1, [Ev.readE T, Ev.dropS, Ev.dropF, Ev.callF] ++ r.2.2 ++ [Ev.writeE U])

end ExceptionMapper

/-- Lifts a pure conversion function `(state, error) -> value` — such as
`|_, err| Into::<E>::into(err)` in `_iex_forward` — to the effectful form
expected by `ExceptionMapper.drop`: it does not touch the slot and emits no
events of its own. -/
def pureF (g : Val → Val → Val) : Val → Val → Exception → Val × Exception × List Ev :=
  fun st e s => (g st e, s, [])

/-- Embeds `_IexForward for &mut (Marker<E>, ManuallyDrop<R>)` (src/lib.rs:188-209),
the general by-mutable-reference forwarding implementation.  `tagE` is the
runtime identity of `E`, `tagR` that of `R::Error`, `into` the
`R::Error -> E` conversion.  If the identities agree, the outcome is run
directly under a token reinterpreted as `Marker<R::Error>`.  Otherwise an
`ExceptionMapper` guard is installed with state `()` (modelled as `0`) and
function `|_, err| Into::<E>::into(err)`; the outcome runs under the
guard's in-marker (typed `R::Error`); on a normal return the guard is
swallowed and the output returned unchanged; on an unwind the guard's
`Drop` fires as the unwind passes through. -/
def iexForwardRef (tagE tagR : Tag) (into : Val → Val) (o : OutcomeV)
    (s : Exception) : Ctl Val × Exception × List Ev :=
  if tagE = tagR then
    getValueOrPanic tagR o s
  else
    match getValueOrPanic tagR o s with
    | (.ret v, s', evs) =>
      let sw := ExceptionMapper.swallow s'
      (.ret v, sw.1, evs ++ sw.2)
    | (.unwind, s', evs) =>
      match ExceptionMapper.drop tagR tagE 0 (pureF fun _ e => into e) s' with
      | (.ret _, s'', evs') => (.unwind, s'', evs ++ evs')
      | (.unwind, s'', evs') => (.unwind, s'', evs ++ evs')
      | (.fatal, s'', evs') => (.fatal, s'', evs ++ evs')
    | (.fatal, s', evs) => (.fatal, s', evs)

/-- Embeds `_IexForward for (Marker<R::Error>, ManuallyDrop<R>)` (src/lib.rs:214-219),
the autoref-specialized by-value implementation for conversion-less
forwarding: the outcome is run directly under the pair's own marker. -/
def iexForwardVal (tagR : Tag) (o : OutcomeV) (s : Exception) :
    Ctl Val × Exception × List Ev :=
  getValueOrPanic tagR o s

/-- Number of slot accesses (reads or writes) in a trace. -/
def slotAccesses (tr : List Ev) : Nat :=
  (tr.filter fun e =>
    match e with
    | .readE _ => true
    | .writeE _ => true
    | _ => false).length

end Iex

/-!
The try-rewriting visitor of the derive macro.

`iex-derive/src/lib.rs` defines `ReplaceTry`, a `syn` `VisitMut` visitor:
`visit_expr_mut` replaces a `?` expression `expr?` by
`::iex::Outcome::get_value_or_panic(#expr, _unsafe_iex_marker)` and then
walks the children of the (replaced) node; `visit_item_fn_mut` and
`visit_expr_closure_mut` are overridden to do nothing, so the rewrite does
not descend into nested function items or closures.
-/

namespace IexDerive

/-- Rust expressions, restricted to the shapes the visitor distinguishes:
the `_unsafe_iex_marker` identifier, literals, `?` expressions, calls (a
callee name and arguments — `::iex::Outcome::get_value_or_panic` among
them), closures and nested `fn` items (each with a body the visitor does
not enter). -/
inductive RExpr where
  | lit (n : Nat)
  | marker
  | tryE (e : RExpr)
  | call (fname : String) (args : List RExpr)
  | closure (body : RExpr)
  | fnItem (body : RExpr)

/-- The path the macro substitutes for `?`. -/
def gvpName : String := "::iex::Outcome::get_value_or_panic"

/-- Whether an expression is the `_unsafe_iex_marker` identifier. -/
def isMarkerE : RExpr → Bool
  | .marker => true
  | _ => false

/-- One if a call with callee `f` and arguments `args` has exactly the shape
the macro substitutes for `?`: callee `::iex::Outcome::get_value_or_panic`
applied to some expression and the `_unsafe_iex_marker` token; zero
otherwise. -/
def isGvpMarkerCall (f : String) (args : List RExpr) : Nat :=
  if f = gvpName then
    match args with
    | [_, a] => if isMarkerE a then 1 else 0
    | _ => 0
  else 0

mutual
/-- Embeds `ReplaceTry::visit_expr_mut` (iex-derive/src/lib.rs:11-16): a `?` node
is replaced by `::iex::Outcome::get_value_or_panic(#expr, _unsafe_iex_marker)`
and the walk continues into the replaced node's children; calls are walked
into their arguments; closure and `fn`-item bodies are skipped
(`visit_expr_closure_mut` / `visit_item_fn_mut` do not recurse). -/
def replaceTry : RExpr → RExpr
  | .lit n => .lit n
  | .marker => .marker
  | .tryE e => .call gvpName [replaceTry e, .marker]
  | .call f args => .call f (replaceTryList args)
  | .closure b => .closure b
  | .fnItem b => .fnItem b

/-- The map of `replaceTry` over argument lists. -/
def replaceTryList : List RExpr → List RExpr
  | [] => []
  | a :: as' => replaceTry a :: replaceTryList as'
end

mutual
/-- Number of `?` expressions in a function's own body, i.e. not counting
those inside nested closures or `fn` items. -/
def ownTryCount : RExpr → Nat
  | .lit _ => 0
  | .marker => 0
  | .tryE e => 1 + ownTryCount e
  | .call _ args => ownTryCountList args
  | .closure _ => 0
  | .fnItem _ => 0

/-- The sum of `ownTryCount` over argument lists. -/
def ownTryCountList : List RExpr → Nat
  | [] => 0
  | a :: as' => ownTryCount a + ownTryCountList as'
end

mutual
/-- Number of own-body occurrences of the substituted call shape
`::iex::Outcome::get_value_or_panic(e, _unsafe_iex_marker)`. -/
def gvpMarkerCount : RExpr → Nat
  | .lit _ => 0
  | .marker => 0
  | .tryE e => gvpMarkerCount e
  | .call f args => isGvpMarkerCall f args + gvpMarkerCountList args
  | .closure _ => 0
  | .fnItem _ => 0

/-- The sum of `gvpMarkerCount` over argument lists. -/
def gvpMarkerCountList : List RExpr → Nat
  | [] => 0
  | a :: as' => gvpMarkerCount a + gvpMarkerCountList as'
end

mutual
/-- The bodies of closures and nested `fn` items occurring in a function's
own body (not descending into them), in left-to-right order. -/
def nestedFnBodies : RExpr → List RExpr
  | .lit _ => []
  | .marker => []
  | .tryE e => nestedFnBodies e
  | .call _ args => nestedFnBodiesList args
  | .closure b => [.closure b]
  | .fnItem b => [.fnItem b]

/-- The concatenation of `nestedFnBodies` over argument lists. -/
def nestedFnBodiesList : List RExpr → List RExpr
  | [] => []
  | a :: as' => nestedFnBodies a ++ nestedFnBodiesList as'
end

end IexDerive

namespace Iex

/-- Counts the occurrences of an event in a trace. -/
def countEv (e : Ev) : List Ev → Nat
  | [] => 0
  | a :: tr => (if a = e then 1 else 0) + countEv e tr

/-- A keyed read that misses (empty slot or tag mismatch) leaves the slot
unchanged. -/
theorem read_none_eq (T : Tag) (s : Exception) (h : (s.read T).1 = none) :
    s.read T = (none, s) := by
  cases s with
  | empty => rfl
  | full t v =>
    by_cases ht : t = T
    · simp [Exception.read, ht] at h
    · simp [Exception.read, ht]

/-- A run of `getValueOrPanic` emits either no event (success) or exactly the
one slot write of the failure path. -/
theorem getValueOrPanic_trace (tag : Tag) (o : OutcomeV) (s : Exception) :
    (getValueOrPanic tag o s).2.2 = [] ∨
    (getValueOrPanic tag o s).2.2 = [Ev.writeE tag] := by
  cases o with
  | ok v => exact Or.inl rfl
  | err e =>
    cases s with
    | empty => exact Or.inr rfl
    | full t w => exact Or.inr rfl

end Iex

namespace IexDerive

/-- The rewrite maps the marker to itself and nothing else to the marker. -/
theorem isMarkerE_replaceTry (a : RExpr) : isMarkerE (replaceTry a) = isMarkerE a := by
  cases a <;> simp [replaceTry, isMarkerE]

/-- The rewrite of an argument list neither creates nor destroys the
substituted call shape at the head of an enclosing call. -/
theorem isGvpMarkerCall_replaceTryList (f : String) (args : List RExpr) :
    isGvpMarkerCall f (replaceTryList args) = isGvpMarkerCall f args := by
  unfold isGvpMarkerCall
  by_cases hf : f = gvpName
  · simp only [hf, if_true, if_pos]
    cases args with
    | nil => simp [replaceTryList]
    | cons a as1 =>
      cases as1 with
      | nil => simp [replaceTryList]
      | cons b as2 =>
        cases as2 with
        | nil => simp [replaceTryList, isMarkerE_replaceTry]
        | cons c rest => simp [replaceTryList]
  · simp [hf]

mutual
/-- After the rewrite, no `?` expression remains in the function's own body. -/
theorem replaceTry_ownTryCount : ∀ e : RExpr, ownTryCount (replaceTry e) = 0
  | .lit _ => by simp [replaceTry, ownTryCount]
  | .marker => by simp [replaceTry, ownTryCount]
  | .tryE e => by
    simp [replaceTry, ownTryCount, ownTryCountList, replaceTry_ownTryCount e]
  | .call f args => by
    simp [replaceTry, ownTryCount, replaceTryList_ownTryCountList args]
  | .closure _ => by simp [replaceTry, ownTryCount]
  | .fnItem _ => by simp [replaceTry, ownTryCount]

/-- List version of `replaceTry_ownTryCount`. -/
theorem replaceTryList_ownTryCountList :
    ∀ l : List RExpr, ownTryCountList (replaceTryList l) = 0
  | [] => by simp [replaceTryList, ownTryCountList]
  | a :: as' => by
    simp [replaceTryList, ownTryCountList, replaceTry_ownTryCount a,
      replaceTryList_ownTryCountList as']
end

mutual
/-- Every own-body `?` becomes one occurrence of the substituted call shape
`::iex::Outcome::get_value_or_panic(e, _unsafe_iex_marker)`, and no such
occurrence is lost or created otherwise. -/
theorem replaceTry_gvpMarkerCount :
    ∀ e : RExpr, gvpMarkerCount (replaceTry e) = gvpMarkerCount e + ownTryCount e
  | .lit _ => by simp [replaceTry, gvpMarkerCount, ownTryCount]
  | .marker => by simp [replaceTry, gvpMarkerCount, ownTryCount]
  | .tryE e => by
    simp [replaceTry, gvpMarkerCount, gvpMarkerCountList, ownTryCount,
      isGvpMarkerCall, gvpName, isMarkerE, replaceTry_gvpMarkerCount e]
    omega
  | .call f args => by
    simp [replaceTry, gvpMarkerCount, ownTryCount,
      isGvpMarkerCall_replaceTryList f args, replaceTryList_gvpMarkerCountList args]
    omega
  | .closure _ => by simp [replaceTry, gvpMarkerCount, ownTryCount]
  | .fnItem _ => by simp [replaceTry, gvpMarkerCount, ownTryCount]

/-- List version of `replaceTry_gvpMarkerCount`. -/
theorem replaceTryList_gvpMarkerCountList :
    ∀ l : List RExpr,
      gvpMarkerCountList (replaceTryList l) = gvpMarkerCountList l + ownTryCountList l
  | [] => by simp [replaceTryList, gvpMarkerCountList, ownTryCountList]
  | a :: as' => by
    simp [replaceTryList, gvpMarkerCountList, ownTryCountList,
      replaceTry_gvpMarkerCount a, replaceTryList_gvpMarkerCountList as']
    omega
end

mutual
/-- The rewrite preserves, verbatim and in order, every closure and nested
`fn` item of the function's own body. -/
theorem replaceTry_nestedFnBodies :
    ∀ e : RExpr, nestedFnBodies (replaceTry e) = nestedFnBodies e
  | .lit _ => by simp [replaceTry, nestedFnBodies]
  | .marker => by simp [replaceTry, nestedFnBodies]
  | .tryE e => by
    simp [replaceTry, nestedFnBodies, nestedFnBodiesList, replaceTry_nestedFnBodies e]
  | .call f args => by
    simp [replaceTry, nestedFnBodies, replaceTryList_nestedFnBodiesList args]
  | .closure _ => by simp [replaceTry]
  | .fnItem _ => by simp [replaceTry]

/-- List version of `replaceTry_nestedFnBodies`. -/
theorem replaceTryList_nestedFnBodiesList :
    ∀ l : List RExpr, nestedFnBodiesList (replaceTryList l) = nestedFnBodiesList l
  | [] => by simp [replaceTryList, nestedFnBodiesList]
  | a :: as' => by
    simp [replaceTryList, nestedFnBodiesList, replaceTry_nestedFnBodies a,
      replaceTryList_nestedFnBodiesList as']
end

end IexDerive

open Iex IexDerive

/-- C2: when a scope guard is dropped during an unwind while the slot holds a
value tagged with the guard's expected input tag `T`, the guard removes that
value, applies the conversion exactly once to its owned state and the slot
payload, and writes the converted result back under the output tag `U`, so
the slot observed afterwards holds the converted value, not the original. -/
theorem mapper_drop_fire_converts (T U : Tag) (st : Val) (g : Val → Val → Val)
    (v : Val) :
    ExceptionMapper.drop T U st (pureF g) (.full T v) =
      (.ret (), .full U (g st v),
        [.readE T, .dropS, .dropF, .callF, .writeE U]) ∧
    countEv Ev.callF (ExceptionMapper.drop T U st (pureF g) (.full T v)).2.2 = 1 := by
  have h : ExceptionMapper.drop T U st (pureF g) (.full T v) =
      (.ret (), .full U (g st v),
        [.readE T, .dropS, .dropF, .callF, .writeE U]) := by
    simp [ExceptionMapper.drop, Exception.read, pureF, Exception.write]
  refine ⟨h, ?_⟩
  rw [h]
  simp [countEv]

/-- C1 counterexample: a guard expecting input tag 0 dropped while the slot
holds a value under the unrelated tag 2 leaves the slot untouched but
releases its owned state and conversion function zero times — not exactly
once, as the claim states: both `ManuallyDrop` cells are leaked. -/
theorem mapper_drop_mismatch_leak_counterexample :
    countEv Ev.dropS
      (ExceptionMapper.drop 0 1 7 (pureF fun _ e => e) (.full 2 5)).2.2 = 0 ∧
    ¬ countEv Ev.dropS
      (ExceptionMapper.drop 0 1 7 (pureF fun _ e => e) (.full 2 5)).2.2 = 1 ∧
    countEv Ev.dropF
      (ExceptionMapper.drop 0 1 7 (pureF fun _ e => e) (.full 2 5)).2.2 = 0 := by
  decide

/-- C1 (amended): when a scope guard is dropped while the slot's stored tag
does not match its expected input tag (or the slot is empty), the guard
leaves the slot completely unchanged and never invokes the conversion
function, but it does not release its owned state or its conversion function
at all: the `ManuallyDrop` cells are leaked (released zero times, not
exactly once). -/
theorem mapper_drop_mismatch_untouched (T U : Tag) (st : Val)
    (f : Val → Val → Exception → Val × Exception × List Ev) (s : Exception)
    (h : (s.read T).1 = none) :
    ExceptionMapper.drop T U st f s = (.ret (), s, [.readE T]) ∧
    countEv Ev.callF (ExceptionMapper.drop T U st f s).2.2 = 0 ∧
    countEv Ev.dropS (ExceptionMapper.drop T U st f s).2.2 = 0 ∧
    countEv Ev.dropF (ExceptionMapper.drop T U st f s).2.2 = 0 := by
  have h2 := read_none_eq T s h
  have hd : ExceptionMapper.drop T U st f s = (.ret (), s, [.readE T]) := by
    simp [ExceptionMapper.drop, h2]
  refine ⟨hd, ?_, ?_, ?_⟩ <;> rw [hd] <;> simp [countEv]

/-- Witness for `mapper_drop_mismatch_untouched` at the concrete mismatch
input of the counterexample. -/
theorem mapper_drop_mismatch_untouched_witness :
    ((Exception.full 2 5).read 0).1 = none ∧
    (ExceptionMapper.drop 0 1 7 (pureF fun _ e => e) (.full 2 5) =
        (.ret (), .full 2 5, [.readE 0]) ∧
      countEv Ev.callF
        (ExceptionMapper.drop 0 1 7 (pureF fun _ e => e) (.full 2 5)).2.2 = 0 ∧
      countEv Ev.dropS
        (ExceptionMapper.drop 0 1 7 (pureF fun _ e => e) (.full 2 5)).2.2 = 0 ∧
      countEv Ev.dropF
        (ExceptionMapper.drop 0 1 7 (pureF fun _ e => e) (.full 2 5)).2.2 = 0) :=
  ⟨by decide,
    mapper_drop_mismatch_untouched 0 1 7 (pureF fun _ e => e) (.full 2 5) (by decide)⟩

/-- C3: when the runtime type identities of `E` and `R::Error` coincide,
forwarding through the by-mutable-reference implementation is a direct
pass-through to `get_value_or_panic` under a token reinterpreted at the
inner error tag: no scope guard is created (no release events appear) and
the conversion function is invoked zero times. -/
theorem forward_fast_path (tagE tagR : Tag) (into : Val → Val) (o : OutcomeV)
    (s : Exception) (h : tagE = tagR) :
    iexForwardRef tagE tagR into o s = getValueOrPanic tagR o s ∧
    countEv Ev.callF (iexForwardRef tagE tagR into o s).2.2 = 0 ∧
    countEv Ev.dropS (iexForwardRef tagE tagR into o s).2.2 = 0 ∧
    countEv Ev.dropF (iexForwardRef tagE tagR into o s).2.2 = 0 := by
  subst h
  have he : iexForwardRef tagE tagE into o s = getValueOrPanic tagE o s := by
    simp [iexForwardRef]
  refine ⟨he, ?_, ?_, ?_⟩ <;> rw [he] <;>
    rcases getValueOrPanic_trace tagE o s with ht | ht <;> rw [ht] <;> simp [countEv]

/-- Witness for `forward_fast_path` on a failing outcome with equal tags. -/
theorem forward_fast_path_witness :
    (3 : Tag) = 3 ∧
    (iexForwardRef 3 3 (fun e => e + 1) (.err 9) .empty =
        getValueOrPanic 3 (.err 9) .empty ∧
      countEv Ev.callF (iexForwardRef 3 3 (fun e => e + 1) (.err 9) .empty).2.2 = 0 ∧
      countEv Ev.dropS (iexForwardRef 3 3 (fun e => e + 1) (.err 9) .empty).2.2 = 0 ∧
      countEv Ev.dropF (iexForwardRef 3 3 (fun e => e + 1) (.err 9) .empty).2.2 = 0) :=
  ⟨rfl, forward_fast_path 3 3 (fun e => e + 1) (.err 9) .empty rfl⟩

/-- C4: when the runtime type identities differ, forwarding installs a scope
guard holding the conversion, runs the outcome under a token typed at the
inner error tag, and: on a normal return it swallows the guard and returns
the output unchanged with the slot untouched; on a failure from an empty
slot the error is first written under the inner tag, the guard's drop then
reads it back under that same tag, converts it once, and rewrites it under
the outer tag while the unwind continues. -/
theorem forward_general_path (tagE tagR : Tag) (into : Val → Val) (v e : Val)
    (s : Exception) (h : tagE ≠ tagR) :
    iexForwardRef tagE tagR into (.ok v) s = (.ret v, s, [.dropS, .dropF]) ∧
    iexForwardRef tagE tagR into (.err e) .empty =
      (.unwind, .full tagE (into e),
        [.writeE tagR, .readE tagR, .dropS, .dropF, .callF, .writeE tagE]) := by
  constructor
  · simp [iexForwardRef, h, getValueOrPanic, ExceptionMapper.swallow]
  · simp [iexForwardRef, h, getValueOrPanic, Exception.write,
      ExceptionMapper.drop, Exception.read, pureF]

/-- Witness for `forward_general_path` with distinct tags 4 and 3. -/
theorem forward_general_path_witness :
    (4 : Tag) ≠ 3 ∧
    (iexForwardRef 4 3 (fun e => e + 1) (.ok 9) .empty =
        (.ret 9, .empty, [.dropS, .dropF]) ∧
      iexForwardRef 4 3 (fun e => e + 1) (.err 9) .empty =
        (.unwind, .full 4 10,
          [.writeE 3, .readE 3, .dropS, .dropF, .callF, .writeE 4])) :=
  ⟨by decide, forward_general_path 4 3 (fun e => e + 1) 9 9 .empty (by decide)⟩

/-- C5: when the protected computation returns normally on the general
forwarding path, the guard is disarmed via `swallow`: the owned state and
the conversion function are each released exactly once, the conversion is
never invoked, the slot is untouched, and no further destruction happens
afterwards (the `Drop` fire path never runs, `mem::forget` having taken it
out of the picture), so the success trace holds exactly one release of
each. -/
theorem swallow_disarms_exactly_once (tagE tagR : Tag) (into : Val → Val)
    (v : Val) (s : Exception) (h : tagE ≠ tagR) :
    ExceptionMapper.swallow s = (s, [.dropS, .dropF]) ∧
    iexForwardRef tagE tagR into (.ok v) s =
      (.ret v, (ExceptionMapper.swallow s).1, (ExceptionMapper.swallow s).2) ∧
    countEv Ev.dropS (iexForwardRef tagE tagR into (.ok v) s).2.2 = 1 ∧
    countEv Ev.dropF (iexForwardRef tagE tagR into (.ok v) s).2.2 = 1 ∧
    countEv Ev.callF (iexForwardRef tagE tagR into (.ok v) s).2.2 = 0 := by
  have hm : iexForwardRef tagE tagR into (.ok v) s = (.ret v, s, [.dropS, .dropF]) := by
    simp [iexForwardRef, h, getValueOrPanic, ExceptionMapper.swallow]
  refine ⟨rfl, ?_, ?_, ?_, ?_⟩ <;> rw [hm] <;> simp [ExceptionMapper.swallow, countEv]

/-- Witness for `swallow_disarms_exactly_once` with distinct tags 1 and 0. -/
theorem swallow_disarms_exactly_once_witness :
    (1 : Tag) ≠ 0 ∧
    (ExceptionMapper.swallow (Exception.full 2 5) =
        (.full 2 5, [.dropS, .dropF]) ∧
      iexForwardRef 1 0 (fun e => e) (.ok 9) (.full 2 5) =
        (.ret 9, (ExceptionMapper.swallow (Exception.full 2 5)).1,
          (ExceptionMapper.swallow (Exception.full 2 5)).2) ∧
      countEv Ev.dropS (iexForwardRef 1 0 (fun e => e) (.ok 9) (.full 2 5)).2.2 = 1 ∧
      countEv Ev.dropF (iexForwardRef 1 0 (fun e => e) (.ok 9) (.full 2 5)).2.2 = 1 ∧
      countEv Ev.callF (iexForwardRef 1 0 (fun e => e) (.ok 9) (.full 2 5)).2.2 = 0) :=
  ⟨by decide, swallow_disarms_exactly_once 1 0 (fun e => e) 9 (.full 2 5) (by decide)⟩

/-- C6: on the fire path the slot read completes and the slot is emptied
before the conversion function runs, and the converted value is written back
only after it returns: the whole result of the drop is determined by running
the conversion on the emptied slot (`Exception.empty` — the old payload is
gone) and then writing its returned value into whatever slot the conversion
itself left behind, so a conversion that recursively exercises the protocol
observes the slot without the old payload. -/
theorem mapper_drop_two_phase (T U : Tag) (st : Val)
    (f : Val → Val → Exception → Val × Exception × List Ev) (v : Val) :
    ExceptionMapper.drop T U st f (.full T v) =
      ExceptionMapper.dropFired T U (f st v .empty) := by
  simp [ExceptionMapper.drop, ExceptionMapper.dropFired, Exception.read]

/-- C7: a successful computation takes the ordinary return path with zero
accesses to the exception slot: the by-value forwarding returns the output
with an unchanged slot and an empty trace, and the by-reference forwarding
likewise returns the output, leaves the slot exactly as it was (empty
before implies empty after), and performs no slot read or write. -/
theorem success_no_slot_access (tagE tagR : Tag) (into : Val → Val) (v : Val)
    (s : Exception) :
    iexForwardVal tagR (.ok v) s = (.ret v, s, []) ∧
    slotAccesses (iexForwardVal tagR (.ok v) s).2.2 = 0 ∧
    (iexForwardRef tagE tagR into (.ok v) s).1 = .ret v ∧
    (iexForwardRef tagE tagR into (.ok v) s).2.1 = s ∧
    slotAccesses (iexForwardRef tagE tagR into (.ok v) s).2.2 = 0 := by
  by_cases h : tagE = tagR
  · subst h
    refine ⟨rfl, rfl, ?_, ?_, ?_⟩ <;>
      simp [iexForwardRef, iexForwardVal, getValueOrPanic, slotAccesses]
  · have hm : iexForwardRef tagE tagR into (.ok v) s = (.ret v, s, [.dropS, .dropF]) := by
      simp [iexForwardRef, h, getValueOrPanic, ExceptionMapper.swallow]
    refine ⟨rfl, rfl, ?_, ?_, ?_⟩ <;> simp [hm, slotAccesses, List.filter]

/-- C8: the macro's rewrite of an `#[iex]` function body eliminates every
own-body `?` expression, and the number of own-body occurrences of the
substituted call — `::iex::Outcome::get_value_or_panic` applied to an
expression and the current scope's `_unsafe_iex_marker` token — grows by
exactly the number of own-body `?` expressions rewritten: each `?` becomes
one such call. -/
theorem macro_replaces_every_try (e : RExpr) :
    ownTryCount (replaceTry e) = 0 ∧
    gvpMarkerCount (replaceTry e) = gvpMarkerCount e + ownTryCount e :=
  ⟨replaceTry_ownTryCount e, replaceTry_gvpMarkerCount e⟩

/-- C9: the rewrite does not descend into nested function items or closures:
rewriting a closure or a nested `fn` item is the identity, and all closure
and nested-`fn` nodes of the own body survive the rewrite verbatim and in
order, so any `?` inside them is left unchanged. -/
theorem macro_skips_nested_fns (e b : RExpr) :
    replaceTry (.closure b) = .closure b ∧
    replaceTry (.fnItem b) = .fnItem b ∧
    nestedFnBodies (replaceTry e) = nestedFnBodies e :=
  ⟨by simp [replaceTry], by simp [replaceTry], replaceTry_nestedFnBodies e⟩

/-- C10: for equal error-type identities the by-value specialized forwarding
implementation and the general by-mutable-reference implementation
instantiated at the same tag are observationally equivalent: same control
outcome, same final slot, same event trace, on every outcome and slot. -/
theorem forward_byvalue_equiv_byref (tagR : Tag) (into : Val → Val)
    (o : OutcomeV) (s : Exception) :
    iexForwardVal tagR o s = iexForwardRef tagR tagR into o s := by
  simp [iexForwardVal, iexForwardRef]
